import Mathlib

/-!
Shallow embedding of the AlgoTrader automation core (bybit_client.py,
automated_trader.py, db.py).  Money amounts are modelled as exact
rationals (`ℚ`); Python's `round(x, n)` (banker's rounding) is modelled
exactly; fallible operations return `Option` or a success flag.
-/

namespace AlgoTrader

/-- Trade side, from the `side` strings `"Buy"`/`"Sell"` compared
case-insensitively in `bybit_client.py`. -/
inductive Side where
  | buy
  | sell
deriving DecidableEq, Repr

/-- The side opposite to the given one (`"Sell" if side == "Buy" else "Buy"`,
`bybit_client.py` line 704). -/
def oppositeSide : Side → Side
  | .buy => .sell
  | .sell => .buy

/-- One per-mode entry of `capital.json`: `{capital, available, used}`
(`bybit_client.py` `load_capital`, lines 143-152; `currency` and
`start_balance` carry no ledger arithmetic and are omitted). -/
structure Wallet where
  capital : ℚ
  available : ℚ
  used : ℚ
deriving DecidableEq, Repr

/-- Round a rational to the nearest integer, ties to even — the semantics of
Python's builtin `round` on an exactly-representable value. -/
def roundHalfEven (q : ℚ) : ℤ :=
  let f : ℤ := ⌊q⌋
  let r : ℚ := q - f
  if r < 1/2 then f
  else if 1/2 < r then f + 1
  else if f % 2 = 0 then f else f + 1

/-- Python's `round(x, ndigits)` on an exact rational value. -/
def pyRound (q : ℚ) (ndigits : ℕ) : ℚ :=
  let m : ℚ := (10 : ℚ) ^ ndigits
  ((roundHalfEven (q * m) : ℤ) : ℚ) / m

/-- `BybitClient.calculate_margin` (bybit_client.py lines 370-371):
`round((qty * price) / leverage, 2)`. -/
def calculate_margin (qty price leverage : ℚ) : ℚ :=
  pyRound (qty * price / leverage) 2

/-- The margin-reserve ledger update performed inline by the virtual branch of
`BybitClient.place_order` (bybit_client.py lines 624-625):
`wallet["available"] = wallet.get("available", 0) - margin + pnl;
wallet["used"] += margin`.  The `capital` field is not touched. -/
def reserveLedger (w : Wallet) (margin pnl : ℚ) : Wallet :=
  { w with available := w.available - margin + pnl, used := w.used + margin }

/-- The margin-release ledger update performed inline by
`BybitClient.close_virtual_position` (bybit_client.py lines 857-858) and
`BybitClient.close_virtual_trade` (lines 914-915):
`wallet["used"] = max(wallet.get("used", 0) - margin, 0);
wallet["available"] = wallet.get("available", 0) + margin + pnl`.
The `capital` field is not touched. -/
def releaseLedger (w : Wallet) (margin pnl : ℚ) : Wallet :=
  { w with used := max (w.used - margin) 0, available := w.available + margin + pnl }

/-- The ledger consistency predicate stated by the spec for the `Capital`
record: `available + used == capital`, `available ≥ 0` (and `used ≥ 0`,
needed for the `max` floor to be inert). -/
def WalletInv (w : Wallet) : Prop :=
  w.available + w.used = w.capital ∧ 0 ≤ w.available ∧ 0 ≤ w.used

instance (w : Wallet) : Decidable (WalletInv w) := by
  unfold WalletInv
  infer_instance

/-! ### Trade store (db.py `DatabaseManager`) -/

/-- A row of the `trades` table (db.py `class Trade`), restricted to the
fields the automation core reads or writes.  `isOpen` models
`status == "open"` (the only status values the core writes are `"open"` and
`"closed"`); `timestamp` is an abstract clock value. -/
structure TradeRec where
  symbol : String
  side : Side
  qty : ℚ
  entry_price : ℚ
  exit_price : Option ℚ
  stop_loss : Option ℚ
  take_profit : Option ℚ
  leverage : ℚ
  margin_usdt : ℚ
  pnl : Option ℚ
  timestamp : ℕ
  isOpen : Bool
  order_id : String
deriving DecidableEq, Repr

/-- `DatabaseManager.add_trade` (db.py lines 223-226): inserts one row. -/
def add_trade (trades : List TradeRec) (t : TradeRec) : List TradeRec :=
  trades ++ [t]

/-- `DatabaseManager.close_trade` (db.py lines 246-253): finds the first trade
with the given `order_id` and, if present, unconditionally overwrites
`exit_price` and `pnl` and sets `status = 'closed'`. -/
def close_trade (trades : List TradeRec) (orderId : String) (exitPrice pnl : ℚ) :
    List TradeRec :=
  match trades with
  | [] => []
  | t :: rest =>
    if t.order_id = orderId then
      { t with exit_price := some exitPrice, pnl := some pnl, isOpen := false } :: rest
    else
      t :: close_trade rest orderId exitPrice pnl

/-- `DatabaseManager.get_trade_by_id` (db.py): first trade whose `order_id`
matches, or none. -/
def get_trade_by_id (trades : List TradeRec) (tradeId : String) : Option TradeRec :=
  trades.find? (fun t => t.order_id == tradeId)

/-! ### Virtual orders, positions and client state (bybit_client.py) -/

/-- An entry of `BybitClient._virtual_orders`.  Entry orders carry
`margin := some m`; the synthesized TP/SL orders carry no margin key
(`margin := none`) and `reduce_only := true`. -/
structure VOrder where
  order_id : String
  symbol : String
  side : Side
  qty : ℚ
  price : ℚ
  isOpen : Bool
  margin : Option ℚ
  reduce_only : Bool
deriving DecidableEq, Repr

/-- An entry of `BybitClient._virtual_positions`.  `realized_pnl` is set on
close (`close_virtual_position` / `close_virtual_trade`). -/
structure VPos where
  symbol : String
  side : Side
  qty : ℚ
  price : ℚ
  margin : ℚ
  isOpen : Bool
  order_id : String
  realized_pnl : Option ℚ
deriving DecidableEq, Repr

/-- The mutable state of a virtual-mode `BybitClient` together with the trade
store and the persisted file.  `capitalLedger` is the `"virtual"` entry of
`self.capital` (loaded once in `load_capital`); `walletLedger` is the
`"virtual"` entry of `self.virtual_wallet` (loaded once in
`_load_virtual_wallet`) — the source keeps these as two separate in-memory
dictionaries.  `savedFile` is the `"virtual"` entry currently persisted in
`capital.json`: `save_capital` overwrites it from `capitalLedger`,
`_save_virtual_wallet` from `walletLedger`, and `close_virtual_trade`
re-reads and re-writes it directly. -/
structure VirtState where
  orders : List VOrder
  positions : List VPos
  capitalLedger : Wallet
  walletLedger : Wallet
  savedFile : Wallet
  dbTrades : List TradeRec
deriving DecidableEq, Repr

/-- Split the position list at the first open position for `symbol`
(the search loop of `close_virtual_position`, bybit_client.py lines 844-845):
returns the prefix of non-matching positions, the found position and the
rest. -/
def splitAtOpen (symbol : String) : List VPos → Option (List VPos × VPos × List VPos)
  | [] => none
  | p :: rest =>
    if p.symbol = symbol ∧ p.isOpen then some ([], p, rest)
    else
      match splitAtOpen symbol rest with
      | none => none
      | some (pre, q, post) => some (p :: pre, q, post)

/-- `BybitClient.calculate_virtual_pnl` (bybit_client.py lines 1025-1040),
with the price feed abstracted as `price? : Option ℚ` (the close of the
latest 1-minute candle): returns `0.0` when no price is available, else
`(last - entry) * qty` for a buy and `(entry - last) * qty` for a sell. -/
def calculate_virtual_pnl (price? : Option ℚ) (p : VPos) : ℚ :=
  match price? with
  | none => 0
  | some last =>
    match p.side with
    | .buy => (last - p.price) * p.qty
    | .sell => (p.price - last) * p.qty

/-- `BybitClient.close_virtual_position` (bybit_client.py lines 843-878).
`priceOf` abstracts `get_chart_data` (latest close per symbol).  Closes the
first open position for `symbol`: marks it closed, records its PnL, applies
`releaseLedger` to `walletLedger` (the `self.virtual_wallet` copy) and
persists it, and — only when a price is available — writes the closed-trade
record via the store's `close_trade`.  Returns the closed position, or
`none` when no open position exists (no mutation). -/
def close_virtual_position (priceOf : String → Option ℚ) (st : VirtState)
    (symbol : String) : VirtState × Option VPos :=
  match splitAtOpen symbol st.positions with
  | none => (st, none)
  | some (pre, pos, post) =>
    let pnl := calculate_virtual_pnl (priceOf pos.symbol) pos
    let pos' := { pos with isOpen := false, realized_pnl := some pnl }
    let w := releaseLedger st.walletLedger pos.margin pnl
    let db' :=
      match priceOf symbol with
      | some exitPrice => close_trade st.dbTrades pos.order_id exitPrice pnl
      | none => st.dbTrades
    ({ st with
        positions := pre ++ pos' :: post,
        walletLedger := w,
        savedFile := w,
        dbTrades := db' }, some pos')

/-- The virtual branch of `BybitClient.place_tp_sl_limit_orders`
(bybit_client.py lines 699-783): two reduce-only limit orders on the
opposite side, TP at `round(entry * 1.30, 4)` and SL at
`round(entry * 0.90, 4)`, with ids `<order_id>_VTP` / `<order_id>_VSL`. -/
def place_tp_sl_limit_orders (symbol : String) (side : Side) (entry qty : ℚ)
    (orderId : String) : List VOrder :=
  [ { order_id := orderId ++ "_VTP", symbol := symbol, side := oppositeSide side,
      qty := qty, price := pyRound (entry * (13/10)) 4, isOpen := true,
      margin := none, reduce_only := true },
    { order_id := orderId ++ "_VSL", symbol := symbol, side := oppositeSide side,
      qty := qty, price := pyRound (entry * (9/10)) 4, isOpen := true,
      margin := none, reduce_only := true } ]

/-- Python's `price or 1.0` (bybit_client.py line 556): `None` and `0.0` are
both falsy, so a missing or zero price is replaced by `1.0`. -/
def priceOrDefault : Option ℚ → ℚ
  | none => 1
  | some p => if p = 0 then 1 else p

/-- The `existing_order` lookup of the virtual branch of `place_order`
(bybit_client.py lines 570-573): first order with the same symbol and side
whose status is `"open"`. -/
def findExistingOrder (symbol : String) (side : Side) : List VOrder → Option VOrder
  | [] => none
  | o :: rest =>
    if o.symbol = symbol ∧ o.side = side ∧ o.isOpen then some o
    else findExistingOrder symbol side rest

/-- The in-place `existing_order.update(...)` of the modify path
(bybit_client.py lines 588-593), applied to the first matching order. -/
def updateOrderFirst (symbol : String) (side : Side) (qty price margin : ℚ) :
    List VOrder → List VOrder
  | [] => []
  | o :: rest =>
    if o.symbol = symbol ∧ o.side = side ∧ o.isOpen then
      { o with qty := qty, price := price, margin := some margin } :: rest
    else o :: updateOrderFirst symbol side qty price margin rest

/-- The position update loop of the modify path (bybit_client.py lines
595-603): updates the first position carrying the order id, then breaks. -/
def updatePosByOrderId (orderId : String) (qty price margin : ℚ) :
    List VPos → List VPos
  | [] => []
  | p :: rest =>
    if p.order_id = orderId then
      { p with qty := qty, price := price, margin := margin } :: rest
    else p :: updatePosByOrderId orderId qty price margin rest

/-- The position-closing loop of `close_virtual_trade` (bybit_client.py lines
929-934): marks the first open position carrying the order id closed,
records the pnl, then breaks. -/
def closePosByOrderId (orderId : String) (pnl : ℚ) : List VPos → List VPos
  | [] => []
  | p :: rest =>
    if p.order_id = orderId ∧ p.isOpen then
      { p with isOpen := false, realized_pnl := some pnl } :: rest
    else p :: closePosByOrderId orderId pnl rest

/-- The virtual branch of `BybitClient.place_order` (bybit_client.py lines
553-687), with the clock abstracted as `now` (the generated order id is
`"virtual_" ++ now`).  If an open order with the same symbol and side
exists, the modify path runs (margin-difference check against available
capital, in-place update of the order and its position); in the source the
modify path reads the order's `"margin"` key, which raises `KeyError` on a
synthesized TP/SL order — modelled as a failure without mutation.
Otherwise the new-order path runs: insufficient margin fails without
mutation; else any open position on the symbol is closed first (booking its
realized pnl), margin is reserved on `capitalLedger` (the `self.capital`
copy), the entry order, its position, the TP/SL bracket and an open trade
row are appended.  Returns the new state and a success flag. -/
def place_order (priceOf : String → Option ℚ) (st : VirtState) (symbol : String)
    (side : Side) (qty : ℚ) (price : Option ℚ) (now : ℕ) : VirtState × Bool :=
  let price_used := priceOrDefault price
  let leverage : ℚ := 20
  let margin := calculate_margin qty price_used leverage
  let wallet := st.capitalLedger
  let available_capital := wallet.available
  match findExistingOrder symbol side st.orders with
  | some existing =>
    match existing.margin with
    | none => (st, false)
    | some old_margin =>
      let margin_diff := margin - old_margin
      if available_capital < margin_diff then (st, false)
      else
        let w := { wallet with available := wallet.available - margin_diff,
                               used := wallet.used + margin_diff }
        ({ st with capitalLedger := w, savedFile := w,
                   orders := updateOrderFirst symbol side qty price_used margin st.orders,
                   positions := updatePosByOrderId existing.order_id qty price_used margin
                     st.positions }, true)
  | none =>
    if available_capital < margin then (st, false)
    else
      let closed := close_virtual_position priceOf st symbol
      let st1 := closed.1
      let pnl :=
        match closed.2 with
        | some p => p.realized_pnl.getD 0
        | none => 0
      let w := { wallet with available := wallet.available - margin + pnl,
                             used := wallet.used + margin }
      let orderId := "virtual_" ++ toString now
      let entryOrder : VOrder :=
        { order_id := orderId, symbol := symbol, side := side, qty := qty,
          price := price_used, isOpen := true, margin := some margin,
          reduce_only := false }
      let newPos : VPos :=
        { symbol := symbol, side := side, qty := qty, price := price_used,
          margin := margin, isOpen := true, order_id := orderId,
          realized_pnl := none }
      let tradeRow : TradeRec :=
        { symbol := symbol, side := side, qty := qty, entry_price := price_used,
          exit_price := none, stop_loss := none, take_profit := none,
          leverage := leverage, margin_usdt := margin, pnl := none,
          timestamp := now, isOpen := true, order_id := orderId }
      ({ st1 with capitalLedger := w, savedFile := w,
                  orders := (st1.orders ++ [entryOrder]) ++
                    place_tp_sl_limit_orders symbol side price_used qty orderId,
                  positions := st1.positions ++ [newPos],
                  dbTrades := add_trade st1.dbTrades tradeRow }, true)

/-- `BybitClient.close_virtual_trade` (bybit_client.py lines 880-941).
Looks the trade up in the store; returns `false` without mutation when it is
missing, not open, or no current price is available.  Otherwise computes the
pnl from the side, releases `margin + pnl` into the persisted `capital.json`
ledger (re-read from the file, i.e. `savedFile`), closes the trade row in
the store and closes the matching open position. -/
def close_virtual_trade (priceOf : String → Option ℚ) (st : VirtState)
    (tradeId : String) : VirtState × Bool :=
  match get_trade_by_id st.dbTrades tradeId with
  | none => (st, false)
  | some trade =>
    if trade.isOpen = false then (st, false)
    else
      match priceOf trade.symbol with
      | none => (st, false)
      | some exit_price =>
        let pnl :=
          match trade.side with
          | .buy => (exit_price - trade.entry_price) * trade.qty
          | .sell => (trade.entry_price - exit_price) * trade.qty
        let v := releaseLedger st.savedFile trade.margin_usdt pnl
        ({ st with savedFile := v,
                   dbTrades := close_trade st.dbTrades trade.order_id exit_price pnl,
                   positions := closePosByOrderId trade.order_id pnl st.positions }, true)

/-! ### Automation controller (automated_trader.py) -/

/-- A candidate signal as consumed by `AutomatedTrader.automation_cycle`
(automated_trader.py lines 282-309): only its `"Symbol"` and
`"margin_usdt"` keys steer admission, and either may be missing. -/
structure Sig where
  symbol : Option String
  margin_usdt : Option ℚ
deriving DecidableEq, Repr

/-- The signal-admission loop body of `automation_cycle` (automated_trader.py
lines 282-309): skip a signal whose symbol is missing, whose margin is
missing, or whose symbol is not tradable; skip when remaining capital is
below the required margin; otherwise admit it, deduct its margin from the
tracked capital, and stop the whole scan once the admitted count has
reached `max_signals` (the count check runs after appending). -/
def admitGo (maxSignals : ℕ) (validSymbols : List String) :
    List Sig → List Sig → ℚ → List Sig × ℚ
  | [], admitted, capital => (admitted, capital)
  | s :: rest, admitted, capital =>
    match s.symbol, s.margin_usdt with
    | none, _ => admitGo maxSignals validSymbols rest admitted capital
    | some _, none => admitGo maxSignals validSymbols rest admitted capital
    | some sym, some margin =>
      if sym ∉ validSymbols then admitGo maxSignals validSymbols rest admitted capital
      else if capital < margin then admitGo maxSignals validSymbols rest admitted capital
      else
        let admitted' := admitted ++ [s]
        let capital' := capital - margin
        if maxSignals ≤ admitted'.length then (admitted', capital')
        else admitGo maxSignals validSymbols rest admitted' capital'

/-- The per-cycle admission step: the loop above started with an empty
`top_signals` list and the current available capital. -/
def automation_admission (maxSignals : ℕ) (validSymbols : List String)
    (signals : List Sig) (capital : ℚ) : List Sig × ℚ :=
  admitGo maxSignals validSymbols signals [] capital

/-- The admission criterion exactly as the spec words it: a (valid, tradable)
signal is admitted when the margin reserved so far plus its margin stays
within the starting capital *and* the admitted count is still below
`max_signals`; the scan itself never stops early. -/
def admitSpecGo (maxSignals : ℕ) (validSymbols : List String) :
    List Sig → List Sig → ℚ → List Sig × ℚ
  | [], admitted, capital => (admitted, capital)
  | s :: rest, admitted, capital =>
    match s.symbol, s.margin_usdt with
    | none, _ => admitSpecGo maxSignals validSymbols rest admitted capital
    | some _, none => admitSpecGo maxSignals validSymbols rest admitted capital
    | some sym, some margin =>
      if sym ∉ validSymbols then admitSpecGo maxSignals validSymbols rest admitted capital
      else if admitted.length < maxSignals ∧ margin ≤ capital then
        admitSpecGo maxSignals validSymbols rest (admitted ++ [s]) (capital - margin)
      else admitSpecGo maxSignals validSymbols rest admitted capital

/-- The spec-worded admission step (see `admitSpecGo`). -/
def admission_spec (maxSignals : ℕ) (validSymbols : List String)
    (signals : List Sig) (capital : ℚ) : List Sig × ℚ :=
  admitSpecGo maxSignals validSymbols signals [] capital

/-! ### Risk gate (automated_trader.py `check_risk_limits`) -/

/-- The pnl contribution of one trade to the equity curve
(automated_trader.py lines 137-143): `float(trade.pnl)`, with `None` and
conversion failures treated as `0.0`. -/
def pnlVal (t : TradeRec) : ℚ :=
  t.pnl.getD 0

/-- Stable insertion of a trade into a timestamp-ascending list, placing it
after all trades with an earlier-or-equal timestamp. -/
def insertByTs (t : TradeRec) : List TradeRec → List TradeRec
  | [] => [t]
  | u :: rest =>
    if u.timestamp ≤ t.timestamp then u :: insertByTs t rest
    else t :: u :: rest

/-- `sorted(trades, key=lambda t: t.timestamp)` (automated_trader.py line
135): stable ascending sort by timestamp. -/
def sortByTs : List TradeRec → List TradeRec
  | [] => []
  | t :: rest => insertByTs t (sortByTs rest)

/-- The synthetic equity curve of `check_risk_limits` (automated_trader.py
lines 134-143): start at the capital read from `capital.json` and append
the running sum of each trade's pnl. -/
def equityCurve (capital : ℚ) (trades : List TradeRec) : List ℚ :=
  (trades.map pnlVal).scanl (· + ·) capital

/-- Modelled from the spec: `utils.calculate_drawdown` is imported by
automated_trader.py but the `utils` module is not part of the sources, so
the computation follows spec §4.2 — walk the curve tracking a running peak,
drawdown at each step is `(peak - equity) / peak * 100` (0 when the peak is
0), and the result is the maximum, a non-negative percentage. -/
def drawdownGo (peak maxdd : ℚ) : List ℚ → ℚ
  | [] => maxdd
  | x :: rest =>
    let peak' := max peak x
    let dd := if peak' = 0 then 0 else (peak' - x) / peak' * 100
    drawdownGo peak' (max maxdd dd) rest

/-- Modelled from the spec: maximum drawdown of an equity curve as a
non-negative percentage (see `drawdownGo`). -/
def calculate_drawdown (curve : List ℚ) : ℚ :=
  drawdownGo 0 0 curve

/-- `AutomatedTrader.get_today_trades` (automated_trader.py lines 99-115)
reduced to its count: the calendar-day function `dayOf` abstracts
`timestamp.date()` and `today` the current date. -/
def todayTradesCount (dayOf : ℕ → ℕ) (trades : List TradeRec) (today : ℕ) : ℕ :=
  (trades.filter (fun t => dayOf t.timestamp == today)).length

/-- `AutomatedTrader.check_risk_limits` (automated_trader.py lines 119-154).
`db?` is `none` when `self.db` is unset (immediately admit); `capRead?` is
the `virtual.available` value read from `capital.json`, `none` when the
read fails (fall back to `100`).  Builds the equity curve over the trades
sorted by timestamp, rejects when the maximum drawdown reaches
`maxDrawdownLimit`, then rejects when today's trade count reaches
`maxDailyTrades`, else admits. -/
def check_risk_limits (db? : Option (List TradeRec)) (capRead? : Option ℚ)
    (maxDrawdownLimit : ℚ) (maxDailyTrades : ℕ) (dayOf : ℕ → ℕ) (today : ℕ) : Bool :=
  match db? with
  | none => true
  | some trades =>
    let capital := capRead?.getD 100
    let curve := equityCurve capital (sortByTs trades)
    if maxDrawdownLimit ≤ calculate_drawdown curve then false
    else if maxDailyTrades ≤ todayTradesCount dayOf trades today then false
    else true

/-! ### Cycle scheduling state (automated_trader.py `automation_cycle`) -/

/-- The scheduling state the cycle body mutates: `last_run_time`
(automated_trader.py line 53), `none` until a cycle completes. -/
structure TraderState where
  lastRunTime : Option ℕ
deriving DecidableEq, Repr

/-- How one pass of the cycle body ends. -/
inductive CycleOutcome where
  | riskCooldown
  | errorBackoff
  | completed
deriving DecidableEq, Repr

/-- The per-cycle body of `automation_cycle` (automated_trader.py lines
256-348), with its two exit conditions abstracted: `riskOk` is the result
of `check_risk_limits`, and `midOk` is false when the signal-processing
middle of the body raises (caught by the loop's outer handler, line 352).
Only a fully completed body assigns `last_run_time = now` (line 347); a
risk rejection enters the cooldown and leaves the state untouched. -/
def automation_cycle_body (riskOk midOk : Bool) (now : ℕ) (st : TraderState) :
    TraderState × CycleOutcome :=
  if !riskOk then (st, .riskCooldown)
  else if !midOk then (st, .errorBackoff)
  else ({ lastRunTime := some now }, .completed)

/-- The risk-cooldown wait (automated_trader.py lines 260-265):
`for remaining in range(60, 0, -1)` checks `self.is_running` and, while it
holds, sleeps 60 seconds.  The argument is the sequence of flag
observations; the result is the number of one-minute sleeps performed and
whether the wait exited early because the flag went false. -/
def risk_cooldown_wait : List Bool → ℕ × Bool
  | [] => (0, false)
  | running :: rest =>
    if running then
      let r := risk_cooldown_wait rest
      (r.1 + 1, r.2)
    else (0, true)

/-! ### Concrete fixtures used by counterexamples and witnesses -/

/-- A price feed quoting symbol `"A"` at price 1 and nothing else. -/
def priceFeedA1 : String → Option ℚ :=
  fun s => if s = "A" then some 1 else none

/-- A price feed quoting symbol `"A"` at price 15 and nothing else. -/
def priceFeedA15 : String → Option ℚ :=
  fun s => if s = "A" then some 15 else none

/-- A price feed quoting symbol `"A"` at price 0 and nothing else. -/
def priceFeedA0 : String → Option ℚ :=
  fun s => if s = "A" then some 0 else none

/-- A fresh virtual-mode client state: every ledger copy holds 100 available,
0 used, capital 100; no orders, positions or trades. -/
def initState : VirtState :=
  { orders := [], positions := [], capitalLedger := ⟨100, 100, 0⟩,
    walletLedger := ⟨100, 100, 0⟩, savedFile := ⟨100, 100, 0⟩, dbTrades := [] }

/-- An open long position on `"A"`: qty 1, entry 10, margin 20. -/
def posA : VPos :=
  { symbol := "A", side := .buy, qty := 1, price := 10, margin := 20,
    isOpen := true, order_id := "o1", realized_pnl := none }

/-- A client state holding `posA` with 80 available / 20 used / capital 100
on every ledger copy (the state after reserving `posA`'s margin). -/
def stateWithPosA : VirtState :=
  { orders := [], positions := [posA], capitalLedger := ⟨100, 80, 20⟩,
    walletLedger := ⟨100, 80, 20⟩, savedFile := ⟨100, 80, 20⟩, dbTrades := [] }

/-- Like `stateWithPosA` but the position has qty 12 (so a price drop to 0
loses 120). -/
def stateWithBigPosA : VirtState :=
  { orders := [], positions := [{ posA with qty := 12 }],
    capitalLedger := ⟨100, 80, 20⟩, walletLedger := ⟨100, 80, 20⟩,
    savedFile := ⟨100, 80, 20⟩, dbTrades := [] }

/-- Three closed trades on day 0 with pnls −10, −20, +25. -/
def drawdownTrades : List TradeRec :=
  [ { symbol := "A", side := .buy, qty := 1, entry_price := 10, exit_price := none,
      stop_loss := none, take_profit := none, leverage := 20, margin_usdt := 20,
      pnl := some (-10), timestamp := 1, isOpen := false, order_id := "o1" },
    { symbol := "A", side := .buy, qty := 1, entry_price := 10, exit_price := none,
      stop_loss := none, take_profit := none, leverage := 20, margin_usdt := 20,
      pnl := some (-20), timestamp := 2, isOpen := false, order_id := "o2" },
    { symbol := "A", side := .buy, qty := 1, entry_price := 10, exit_price := none,
      stop_loss := none, take_profit := none, leverage := 20, margin_usdt := 20,
      pnl := some 25, timestamp := 3, isOpen := false, order_id := "o3" } ]

/-- A trade already closed at exit price 10 with pnl 1. -/
def closedTrade : TradeRec :=
  { symbol := "A", side := .buy, qty := 1, entry_price := 10,
    exit_price := some 10, stop_loss := none, take_profit := none, leverage := 20,
    margin_usdt := 20, pnl := some 1, timestamp := 1, isOpen := false,
    order_id := "o1" }

/-- A client state whose trade store holds exactly `closedTrade`. -/
def stateWithClosedTrade : VirtState :=
  { orders := [], positions := [], capitalLedger := ⟨100, 100, 0⟩,
    walletLedger := ⟨100, 100, 0⟩, savedFile := ⟨100, 100, 0⟩,
    dbTrades := [closedTrade] }

/-- Number of open positions carried for a symbol. -/
def openCount (s : String) (ps : List VPos) : ℕ :=
  (ps.filter (fun p => p.symbol == s && p.isOpen)).length

/-- An open entry order on `"A"` (buy, qty 60, price 20, margin 60). -/
def orderO0 : VOrder :=
  { order_id := "o0", symbol := "A", side := .buy, qty := 60, price := 20,
    isOpen := true, margin := some 60, reduce_only := false }

/-- The position belonging to `orderO0`. -/
def posO0 : VPos :=
  { symbol := "A", side := .buy, qty := 60, price := 20, margin := 60,
    isOpen := true, order_id := "o0", realized_pnl := none }

/-- A state carrying `orderO0`/`posO0` with only 10 available. -/
def stateWithOrderO0 : VirtState :=
  { orders := [orderO0], positions := [posO0], capitalLedger := ⟨70, 10, 60⟩,
    walletLedger := ⟨70, 10, 60⟩, savedFile := ⟨70, 10, 60⟩, dbTrades := [] }

/-! ### C1 — the `available + used == capital` invariant -/

/-- C1, counterexample.  From a state satisfying the ledger invariant
(`80 + 20 = 100`), closing the open position on `"A"` at price 15 books
pnl `+5`: the wallet ledger becomes `{capital 100, available 105, used 0}`,
so `available + used ≠ capital` — `close_virtual_position` never updates the
`capital` field.  Closing the 12-lot position at price 0 books pnl `-120`
and leaves `available = -20 < 0`. -/
theorem close_breaks_capital_identity :
    WalletInv stateWithPosA.walletLedger ∧
    (close_virtual_position priceFeedA15 stateWithPosA "A").1.walletLedger
      = ⟨100, 105, 0⟩ ∧
    ¬ WalletInv (close_virtual_position priceFeedA15 stateWithPosA "A").1.walletLedger ∧
    (close_virtual_position priceFeedA0 stateWithBigPosA "A").1.walletLedger.available
      = -20 := by
  refine ⟨by norm_num [WalletInv, stateWithPosA], ?_, ?_, ?_⟩ <;>
    norm_num [WalletInv, close_virtual_position, stateWithPosA, stateWithBigPosA, posA,
      splitAtOpen, calculate_virtual_pnl, releaseLedger, priceFeedA15, priceFeedA0,
      close_trade]

/-- C1 (amended): reserving margin `m ≤ available` with no booked pnl
preserves `available + used = capital` and `available ≥ 0`; a release of
margin `m ≤ used` with realized pnl `p` leaves `capital` untouched and
moves `available + used` to `capital + p`, so the invariant survives a
close only when `p = 0`, and `available` can go negative for `p`
sufficiently negative. -/
theorem ledger_ops_capital_accounting (w : Wallet) (margin pnl : ℚ)
    (hinv : WalletInv w) :
    (0 ≤ margin → margin ≤ w.available → WalletInv (reserveLedger w margin 0)) ∧
    (margin ≤ w.used →
      (releaseLedger w margin pnl).available + (releaseLedger w margin pnl).used
        = w.capital + pnl) ∧
    (releaseLedger w margin pnl).capital = w.capital ∧
    (reserveLedger w margin pnl).capital = w.capital := by
  obtain ⟨hsum, hav, hus⟩ := hinv
  refine ⟨fun hm hma => ⟨?_, ?_, ?_⟩, fun hmu => ?_, rfl, rfl⟩
  · simp only [reserveLedger]
    linarith
  · simp only [reserveLedger]
    linarith
  · simp only [reserveLedger]
    linarith
  · simp only [releaseLedger]
    rw [max_eq_left (by linarith)]
    linarith

/-- Witness for `ledger_ops_capital_accounting` at
`w = ⟨100, 80, 20⟩, margin = 20, pnl = 5`. -/
theorem ledger_ops_capital_accounting_witness :
    WalletInv (⟨100, 80, 20⟩ : Wallet) ∧
    ((0 ≤ (20:ℚ) → (20:ℚ) ≤ (80:ℚ) →
        WalletInv (reserveLedger ⟨100, 80, 20⟩ 20 0)) ∧
      ((20:ℚ) ≤ (20:ℚ) →
        (releaseLedger ⟨100, 80, 20⟩ 20 5).available
            + (releaseLedger ⟨100, 80, 20⟩ 20 5).used = 100 + 5) ∧
      (releaseLedger ⟨100, 80, 20⟩ 20 5).capital = 100 ∧
      (reserveLedger ⟨100, 80, 20⟩ 20 5).capital = 100) :=
  ⟨by norm_num [WalletInv],
    ledger_ops_capital_accounting ⟨100, 80, 20⟩ 20 5 (by norm_num [WalletInv])⟩

/-! ### C6 — reserve then release restores `available` -/

/-- C6, counterexample.  Starting from `initState` (available 100 on every
copy), `place_order` reserves margin 20 on the `self.capital` copy; then
`close_virtual_position` (pnl 0, since the price still equals the entry
price) releases those 20 on the *other* copy, `self.virtual_wallet`.
Afterwards no observable `available` equals the pre-reserve 100: the
`self.capital` copy holds 80, the `self.virtual_wallet` copy and the
persisted file hold 120. -/
theorem reserve_release_split_ledgers :
    calculate_margin 400 1 20 = 20 ∧
    ((close_virtual_position priceFeedA1
        (place_order priceFeedA1 initState "A" .buy 400 (some 1) 5).1 "A").2.map
          VPos.realized_pnl) = some (some 0) ∧
    (close_virtual_position priceFeedA1
        (place_order priceFeedA1 initState "A" .buy 400 (some 1) 5).1
          "A").1.capitalLedger.available = 80 ∧
    (close_virtual_position priceFeedA1
        (place_order priceFeedA1 initState "A" .buy 400 (some 1) 5).1
          "A").1.walletLedger.available = 120 ∧
    (close_virtual_position priceFeedA1
        (place_order priceFeedA1 initState "A" .buy 400 (some 1) 5).1
          "A").1.savedFile.available = 120 := by
  norm_num [calculate_margin, pyRound, roundHalfEven, place_order,
    close_virtual_position, priceFeedA1, initState, findExistingOrder, splitAtOpen,
    calculate_virtual_pnl, releaseLedger, priceOrDefault, place_tp_sl_limit_orders,
    add_trade, close_trade]

/-- C6 (amended): on one and the same wallet record, reserving margin
`x ≤ available` and then releasing the same margin with pnl 0 restores
`available` to its pre-reserve value exactly. -/
theorem reserve_release_restores_available (w : Wallet) (x : ℚ)
    (_hx : x ≤ w.available) :
    (releaseLedger (reserveLedger w x 0) x 0).available = w.available := by
  simp only [reserveLedger, releaseLedger]
  ring

/-- Witness for `reserve_release_restores_available` at
`w = ⟨100, 100, 0⟩, x = 20`. -/
theorem reserve_release_restores_available_witness :
    (20:ℚ) ≤ (100:ℚ) ∧
    (releaseLedger (reserveLedger ⟨100, 100, 0⟩ 20 0) 20 0).available = 100 :=
  ⟨by norm_num, reserve_release_restores_available ⟨100, 100, 0⟩ 20 (by norm_num)⟩

/-! ### C10 — the risk gate fails open -/

/-- C10: with no trade database configured, `check_risk_limits` returns true
whatever the other inputs are; and when `capital.json` cannot be read, it
evaluates exactly as it would with the default starting capital 100. -/
theorem check_risk_limits_fails_open (trades : List TradeRec) (capRead? : Option ℚ)
    (limit : ℚ) (maxDaily : ℕ) (dayOf : ℕ → ℕ) (today : ℕ) :
    check_risk_limits none capRead? limit maxDaily dayOf today = true ∧
    check_risk_limits (some trades) none limit maxDaily dayOf today
      = check_risk_limits (some trades) (some 100) limit maxDaily dayOf today := by
  exact ⟨rfl, rfl⟩

/-! ### C2 — the risk gate rejects on drawdown or daily-trade breach -/

/-- C2: `check_risk_limits` returns false whenever the maximum drawdown of
the synthetic equity curve (starting capital followed by the running pnl
sum over the timestamp-sorted history) reaches the drawdown limit, or the
count of trades stamped with the current day reaches the daily-trade
limit. -/
theorem check_risk_limits_rejects_on_limits (trades : List TradeRec)
    (capRead? : Option ℚ) (limit : ℚ) (maxDaily : ℕ) (dayOf : ℕ → ℕ) (today : ℕ)
    (h : limit ≤ calculate_drawdown (equityCurve (capRead?.getD 100) (sortByTs trades))
      ∨ maxDaily ≤ todayTradesCount dayOf trades today) :
    check_risk_limits (some trades) capRead? limit maxDaily dayOf today = false := by
  simp only [check_risk_limits]
  rcases h with h | h
  · rw [if_pos h]
  · by_cases hd : limit ≤ calculate_drawdown
        (equityCurve (capRead?.getD 100) (sortByTs trades))
    · rw [if_pos hd]
    · rw [if_neg hd, if_pos h]

/-- Witness for `check_risk_limits_rejects_on_limits`: the spec's example.
With capital 100 the curve is `[100, 90, 70, 95]`, whose maximum drawdown is
`(100-70)/100 = 30% ≥ 25%`, so the gate rejects. -/
theorem check_risk_limits_rejects_on_limits_witness :
    calculate_drawdown (equityCurve ((some (100:ℚ)).getD 100) (sortByTs drawdownTrades))
      = 30 ∧
    check_risk_limits (some drawdownTrades) (some 100) 25 50 (fun _ => 0) 0 = false := by
  have hdd : calculate_drawdown
      (equityCurve ((some (100:ℚ)).getD 100) (sortByTs drawdownTrades)) = 30 := by
    norm_num [drawdownTrades, equityCurve, sortByTs, insertByTs, pnlVal,
      calculate_drawdown, drawdownGo, List.scanl]
  exact ⟨hdd,
    check_risk_limits_rejects_on_limits drawdownTrades (some 100) 25 50 (fun _ => 0) 0
      (Or.inl (by rw [hdd]; norm_num))⟩

/-! ### C3 — the admission step versus the spec's criterion -/

/-- Once the admitted list is full, the spec-worded scan admits nothing
further and leaves its accumulators unchanged. -/
theorem admitSpecGo_of_full (m : ℕ) (vs : List String) (l : List Sig) :
    ∀ admitted capital, m ≤ admitted.length →
      admitSpecGo m vs l admitted capital = (admitted, capital) := by
  induction l with
  | nil => intro admitted capital _; rfl
  | cons s rest ih =>
    intro admitted capital h
    rcases s with ⟨sym?, mar?⟩
    cases sym? with
    | none => simpa [admitSpecGo] using ih admitted capital h
    | some sym =>
      cases mar? with
      | none => simpa [admitSpecGo] using ih admitted capital h
      | some margin =>
        simp only [admitSpecGo]
        by_cases hv : sym ∈ vs
        · have hne : ¬ (admitted.length < m ∧ margin ≤ capital) :=
            fun hx => absurd hx.1 (Nat.not_lt.mpr h)
          rw [if_neg (not_not_intro hv), if_neg hne]
          exact ih admitted capital h
        · rw [if_pos hv]
          exact ih admitted capital h

/-- While the admitted list is not yet full, the source's admission loop
(count check after appending, early break) agrees with the spec-worded
scan (count check before admitting, no early break). -/
theorem admitGo_eq_admitSpecGo (m : ℕ) (vs : List String) (l : List Sig) :
    ∀ admitted capital, admitted.length < m →
      admitGo m vs l admitted capital = admitSpecGo m vs l admitted capital := by
  induction l with
  | nil => intro admitted capital _; rfl
  | cons s rest ih =>
    intro admitted capital h
    rcases s with ⟨sym?, mar?⟩
    cases sym? with
    | none => simpa [admitGo, admitSpecGo] using ih admitted capital h
    | some sym =>
      cases mar? with
      | none => simpa [admitGo, admitSpecGo] using ih admitted capital h
      | some margin =>
        simp only [admitGo, admitSpecGo]
        by_cases hv : sym ∈ vs
        · simp only [if_neg (not_not_intro hv)]
          by_cases hc : capital < margin
          · have hne : ¬ (admitted.length < m ∧ margin ≤ capital) :=
              fun hx => absurd hx.2 (not_le.mpr hc)
            rw [if_pos hc, if_neg hne]
            exact ih admitted capital h
          · have hcond : admitted.length < m ∧ margin ≤ capital := ⟨h, not_lt.mp hc⟩
            rw [if_neg hc, if_pos hcond]
            by_cases hfull :
              m ≤ (admitted ++ [(⟨some sym, some margin⟩ : Sig)]).length
            · rw [if_pos hfull,
                admitSpecGo_of_full m vs rest
                  (admitted ++ [(⟨some sym, some margin⟩ : Sig)])
                  (capital - margin) hfull]
            · rw [if_neg hfull]
              exact ih (admitted ++ [(⟨some sym, some margin⟩ : Sig)])
                (capital - margin) (Nat.not_le.mp hfull)
        · simp only [if_pos hv]
          exact ih admitted capital h

/-- C3, counterexample.  With `max_signals = 0` (reachable: the
`TOP_N_SIGNALS` setting is read with `int(...)`), the source loop still
admits the first affordable signal, because the count check runs only after
appending; the claim's criterion ("fewer than max_signals admitted")
admits nothing. -/
theorem admission_differs_from_spec_at_zero_max :
    (automation_admission 0 ["A"] [⟨some "A", some 60⟩] 100).1
      = [⟨some "A", some 60⟩] ∧
    (admission_spec 0 ["A"] [⟨some "A", some 60⟩] 100).1 = [] ∧
    automation_admission 0 ["A"] [⟨some "A", some 60⟩] 100
      ≠ admission_spec 0 ["A"] [⟨some "A", some 60⟩] 100 := by
  refine ⟨?_, ?_, ?_⟩ <;>
    norm_num [automation_admission, admission_spec, admitGo, admitSpecGo]

/-- C3 (amended): whenever `max_signals ≥ 1`, the per-cycle admission step
admits exactly the signals selected by the spec's criterion — margin plus
margin already reserved stays within the starting capital and fewer than
`max_signals` have been admitted — and tracks the same remaining
capital. -/
theorem admission_matches_spec_criterion (maxSignals : ℕ) (vs : List String)
    (signals : List Sig) (capital : ℚ) (h : 1 ≤ maxSignals) :
    automation_admission maxSignals vs signals capital
      = admission_spec maxSignals vs signals capital :=
  admitGo_eq_admitSpecGo maxSignals vs signals [] capital (by simpa using h)

/-- Witness for `admission_matches_spec_criterion`: the spec's scenario —
two signals each needing margin 60 against capital 100 admit only the
first, leaving 40. -/
theorem admission_matches_spec_criterion_witness :
    1 ≤ 5 ∧
    automation_admission 5 ["A", "B"]
        [⟨some "A", some 60⟩, ⟨some "B", some 60⟩] 100
      = admission_spec 5 ["A", "B"] [⟨some "A", some 60⟩, ⟨some "B", some 60⟩] 100 ∧
    automation_admission 5 ["A", "B"] [⟨some "A", some 60⟩, ⟨some "B", some 60⟩] 100
      = ([⟨some "A", some 60⟩], 40) :=
  ⟨by norm_num,
    admission_matches_spec_criterion 5 ["A", "B"]
      [⟨some "A", some 60⟩, ⟨some "B", some 60⟩] 100 (by norm_num),
    by norm_num [automation_admission, admitGo]⟩

/-! ### C4 — risk rejection leaves `last_run_time` alone -/

/-- The cooldown loop sleeps once per leading `true` observation of the
running flag: it re-checks the flag before every one-minute sleep. -/
theorem risk_cooldown_wait_sleeps (flags : List Bool) :
    (risk_cooldown_wait flags).1 = (flags.takeWhile id).length := by
  induction flags with
  | nil => rfl
  | cons b rest ih =>
    cases b with
    | false => simp [risk_cooldown_wait, List.takeWhile]
    | true => simp [risk_cooldown_wait, List.takeWhile, ih]

/-- The cooldown loop exits early exactly when some observation of the
running flag is false before the 60 iterations are exhausted. -/
theorem risk_cooldown_wait_early (flags : List Bool) :
    (risk_cooldown_wait flags).2 = flags.any (fun b => !b) := by
  induction flags with
  | nil => rfl
  | cons b rest ih =>
    cases b with
    | false => simp [risk_cooldown_wait]
    | true => simp [risk_cooldown_wait, ih]

/-- C4: a risk-rejected pass of the cycle body returns with the scheduling
state untouched and outcome `riskCooldown`; `last_run_time` is assigned
(to `now`) exactly when the body runs to completion, i.e. when the risk
gate admitted and no exception interrupted the middle; and the cooldown
wait re-checks the running flag before each one-minute sleep, exiting
early as soon as it observes false. -/
theorem risk_reject_frame_and_cooldown (st : TraderState) (midOk : Bool)
    (now : ℕ) (flags : List Bool) :
    automation_cycle_body false midOk now st = (st, CycleOutcome.riskCooldown) ∧
    (∀ riskOk mid : Bool,
      (automation_cycle_body riskOk mid now st).1.lastRunTime
        = if riskOk && mid then some now else st.lastRunTime) ∧
    (∀ riskOk mid : Bool,
      ((automation_cycle_body riskOk mid now st).2 = CycleOutcome.completed)
        ↔ riskOk && mid = true) ∧
    (risk_cooldown_wait flags).1 = (flags.takeWhile id).length ∧
    (risk_cooldown_wait flags).2 = flags.any (fun b => !b) := by
  refine ⟨rfl, ?_, ?_, risk_cooldown_wait_sleeps flags, risk_cooldown_wait_early flags⟩
  · intro riskOk mid
    cases riskOk <;> cases mid <;> simp [automation_cycle_body]
  · intro riskOk mid
    cases riskOk <;> cases mid <;> simp [automation_cycle_body]

/-! ### C7 — closing an already-closed trade -/

/-- C7, counterexample.  The store's `close_trade` is not a no-op on an
already-closed trade: called with a different exit price and pnl it
overwrites both fields of the closed record. -/
theorem close_trade_overwrites_closed :
    closedTrade.isOpen = false ∧
    close_trade [closedTrade] "o1" 20 2
      = [{ closedTrade with exit_price := some 20, pnl := some 2 }] ∧
    close_trade [closedTrade] "o1" 20 2 ≠ [closedTrade] := by
  refine ⟨rfl, ?_, ?_⟩ <;> norm_num [close_trade, closedTrade]

/-- C7 (amended): `close_virtual_trade` on a trade that is not open returns
false and mutates nothing; the store's `close_trade`, by contrast, always
overwrites `exit_price` and `pnl` of an existing trade (leaving its status
closed), so re-closing is idempotent only when repeated with the same
arguments. -/
theorem close_already_closed_noop (priceOf : String → Option ℚ) (st : VirtState)
    (tradeId : String) (t : TradeRec)
    (hfind : get_trade_by_id st.dbTrades tradeId = some t)
    (hclosed : t.isOpen = false) :
    close_virtual_trade priceOf st tradeId = (st, false) ∧
    (∀ (trades : List TradeRec) (oid : String) (ep pnl : ℚ),
      close_trade (close_trade trades oid ep pnl) oid ep pnl
        = close_trade trades oid ep pnl) := by
  constructor
  · simp [close_virtual_trade, hfind, hclosed]
  · intro trades oid ep pnl
    induction trades with
    | nil => rfl
    | cons u rest ih =>
      by_cases hu : u.order_id = oid
      · simp [close_trade, hu]
      · simp [close_trade, hu, ih]

/-- Witness for `close_already_closed_noop` on `stateWithClosedTrade`. -/
theorem close_already_closed_noop_witness :
    get_trade_by_id stateWithClosedTrade.dbTrades "o1" = some closedTrade ∧
    closedTrade.isOpen = false ∧
    (close_virtual_trade priceFeedA15 stateWithClosedTrade "o1"
        = (stateWithClosedTrade, false) ∧
      (∀ (trades : List TradeRec) (oid : String) (ep pnl : ℚ),
        close_trade (close_trade trades oid ep pnl) oid ep pnl
          = close_trade trades oid ep pnl)) :=
  ⟨by norm_num [get_trade_by_id, stateWithClosedTrade, closedTrade], rfl,
    close_already_closed_noop priceFeedA15 stateWithClosedTrade "o1" closedTrade
      (by norm_num [get_trade_by_id, stateWithClosedTrade, closedTrade]) rfl⟩

/-! ### C8 — closing an open simulated position -/

/-- What a successful `splitAtOpen` yields: the original list decomposed
around the first open position for the symbol, whose prefix contains no
open position for that symbol. -/
theorem splitAtOpen_eq_some (symbol : String) :
    ∀ (ps pre : List VPos) (pos : VPos) (post : List VPos),
      splitAtOpen symbol ps = some (pre, pos, post) →
      ps = pre ++ pos :: post ∧ pos.symbol = symbol ∧ pos.isOpen = true ∧
        ∀ q ∈ pre, ¬(q.symbol = symbol ∧ q.isOpen = true) := by
  intro ps
  induction ps with
  | nil => intro pre pos post h; exact absurd h (by simp [splitAtOpen])
  | cons p rest ih =>
    intro pre pos post h
    by_cases hp : p.symbol = symbol ∧ p.isOpen
    · rw [splitAtOpen, if_pos hp] at h
      obtain ⟨rfl, rfl, rfl⟩ := by simpa using h
      exact ⟨rfl, hp.1, hp.2, by simp⟩
    · rw [splitAtOpen, if_neg hp] at h
      cases hrest : splitAtOpen symbol rest with
      | none => rw [hrest] at h; cases h
      | some tup =>
        obtain ⟨pre', q, post'⟩ := tup
        rw [hrest] at h
        obtain ⟨rfl, rfl, rfl⟩ := by simpa using h
        obtain ⟨hps, hsym, hopen, hpre⟩ := ih pre' q post' hrest
        refine ⟨by rw [hps]; rfl, hsym, hopen, ?_⟩
        intro x hx
        rcases List.mem_cons.mp hx with rfl | hx
        · exact fun hc => hp ⟨hc.1, by simpa using hc.2⟩
        · exact hpre x hx

/-- C8: closing the first open position for a symbol computes the realized
pnl from the side (`(exit − entry) * qty` for a buy, `(entry − exit) * qty`
for a sell) at the latest known price, marks the position closed with that
pnl, refunds `margin + pnl` into available (flooring used at 0), and
records the closed trade carrying that exit price and pnl. -/
theorem close_virtual_position_spec (priceOf : String → Option ℚ) (st : VirtState)
    (symbol : String) (pre post : List VPos) (pos : VPos) (px : ℚ)
    (hsplit : splitAtOpen symbol st.positions = some (pre, pos, post))
    (hpx : priceOf symbol = some px) :
    calculate_virtual_pnl (some px) pos
      = (match pos.side with
          | Side.buy => (px - pos.price) * pos.qty
          | Side.sell => (pos.price - px) * pos.qty) ∧
    close_virtual_position priceOf st symbol
      = ({ st with
            positions := pre ++
              { pos with isOpen := false,
                         realized_pnl := some (calculate_virtual_pnl (some px) pos) }
                :: post,
            walletLedger := releaseLedger st.walletLedger pos.margin
              (calculate_virtual_pnl (some px) pos),
            savedFile := releaseLedger st.walletLedger pos.margin
              (calculate_virtual_pnl (some px) pos),
            dbTrades := close_trade st.dbTrades pos.order_id px
              (calculate_virtual_pnl (some px) pos) },
          some { pos with isOpen := false,
                          realized_pnl := some (calculate_virtual_pnl (some px) pos) }) ∧
    (releaseLedger st.walletLedger pos.margin
        (calculate_virtual_pnl (some px) pos)).available
      = st.walletLedger.available + pos.margin + calculate_virtual_pnl (some px) pos ∧
    (releaseLedger st.walletLedger pos.margin
        (calculate_virtual_pnl (some px) pos)).used
      = max (st.walletLedger.used - pos.margin) 0 := by
  obtain ⟨-, hsym, -, -⟩ := splitAtOpen_eq_some symbol st.positions pre pos post hsplit
  refine ⟨?_, ?_, rfl, rfl⟩
  · show calculate_virtual_pnl (some px) pos = _
    obtain ⟨a, sd, q, pr, mg, op, oid, rp⟩ := pos
    cases sd <;> rfl
  · simp only [close_virtual_position, hsplit, hsym, hpx]

/-- Witness for `close_virtual_position_spec`: closing `posA` (long, qty 1,
entry 10, margin 20) at price 15 books pnl 5 and refunds 25 into available
(`80 + 20 + 5 = 105`). -/
theorem close_virtual_position_spec_witness :
    splitAtOpen "A" stateWithPosA.positions = some ([], posA, []) ∧
    priceFeedA15 "A" = some 15 ∧
    calculate_virtual_pnl (some 15) posA = 5 ∧
    (close_virtual_position priceFeedA15 stateWithPosA "A").1.walletLedger.available
      = 105 := by
  have h1 : splitAtOpen "A" stateWithPosA.positions = some ([], posA, []) := by
    norm_num [splitAtOpen, stateWithPosA, posA]
  have h2 : priceFeedA15 "A" = some 15 := by norm_num [priceFeedA15]
  have hmain :=
    close_virtual_position_spec priceFeedA15 stateWithPosA "A" [] [] posA 15 h1 h2
  refine ⟨h1, h2, by norm_num [calculate_virtual_pnl, posA], ?_⟩
  rw [hmain.2.1]
  norm_num [releaseLedger, calculate_virtual_pnl, posA, stateWithPosA]

/-! ### C9 — at most one open virtual position per symbol -/

theorem openCount_nil (s : String) : openCount s [] = 0 := rfl

theorem openCount_append (s : String) (xs ys : List VPos) :
    openCount s (xs ++ ys) = openCount s xs + openCount s ys := by
  simp [openCount]

theorem openCount_cons_closed (s : String) (p : VPos) (hp : p.isOpen = false)
    (l : List VPos) : openCount s (p :: l) = openCount s l := by
  simp [openCount, List.filter, hp]

theorem openCount_cons_open_self (s : String) (p : VPos) (hsym : p.symbol = s)
    (hp : p.isOpen = true) (l : List VPos) :
    openCount s (p :: l) = openCount s l + 1 := by
  simp [openCount, List.filter, hsym, hp, Nat.add_comm]

theorem openCount_cons_other (s : String) (p : VPos) (hsym : p.symbol ≠ s)
    (l : List VPos) : openCount s (p :: l) = openCount s l := by
  simp [openCount, List.filter, beq_eq_false_iff_ne.mpr hsym]

/-- A failed `splitAtOpen` means the symbol has no open position at all. -/
theorem splitAtOpen_eq_none (symbol : String) :
    ∀ ps : List VPos, splitAtOpen symbol ps = none → openCount symbol ps = 0 := by
  intro ps
  induction ps with
  | nil => intro _; rfl
  | cons p rest ih =>
    intro h
    by_cases hp : p.symbol = symbol ∧ p.isOpen
    · rw [splitAtOpen, if_pos hp] at h
      cases h
    · rw [splitAtOpen, if_neg hp] at h
      have hrest : splitAtOpen symbol rest = none := by
        cases hr : splitAtOpen symbol rest with
        | none => rfl
        | some tup =>
          obtain ⟨pre', q, post'⟩ := tup
          rw [hr] at h
          cases h
      have h0 := ih hrest
      by_cases hsym : p.symbol = symbol
      · have hop : p.isOpen = false := by
          cases hpo : p.isOpen with
          | false => rfl
          | true => exact absurd ⟨hsym, hpo⟩ hp
        rw [openCount_cons_closed symbol p hop rest, h0]
      · rw [openCount_cons_other symbol p hsym rest, h0]

/-- A prefix free of open positions for the symbol contributes nothing to
its open count. -/
theorem openCount_eq_zero_of_no_open (symbol : String) :
    ∀ pre : List VPos, (∀ q ∈ pre, ¬(q.symbol = symbol ∧ q.isOpen = true)) →
      openCount symbol pre = 0 := by
  intro pre
  induction pre with
  | nil => intro _; rfl
  | cons p rest ih =>
    intro h
    have hrest := ih fun q hq => h q (List.mem_cons_of_mem p hq)
    by_cases hsym : p.symbol = symbol
    · have hop : p.isOpen = false := by
        cases hpo : p.isOpen with
        | false => rfl
        | true => exact absurd ⟨hsym, hpo⟩ (h p (List.mem_cons_self p rest))
      rw [openCount_cons_closed symbol p hop rest, hrest]
    · rw [openCount_cons_other symbol p hsym rest, hrest]

/-- `close_virtual_position` never increases any symbol's open count. -/
theorem close_virtual_position_openCount_le (priceOf : String → Option ℚ)
    (st : VirtState) (symbol s : String) :
    openCount s (close_virtual_position priceOf st symbol).1.positions
      ≤ openCount s st.positions := by
  cases hsplit : splitAtOpen symbol st.positions with
  | none => simp [close_virtual_position, hsplit]
  | some tup =>
    obtain ⟨pre, pos, post⟩ := tup
    obtain ⟨hps, hsym, hopen, -⟩ :=
      splitAtOpen_eq_some symbol st.positions pre pos post hsplit
    simp only [close_virtual_position, hsplit]
    rw [hps, openCount_append, openCount_append,
      openCount_cons_closed s _ rfl post]
    by_cases hs : pos.symbol = s
    · rw [openCount_cons_open_self s pos hs hopen post]
      omega
    · rw [openCount_cons_other s pos hs post]

/-- Closing a symbol with at most one open position leaves it with none. -/
theorem close_virtual_position_openCount_self (priceOf : String → Option ℚ)
    (st : VirtState) (symbol : String)
    (h : openCount symbol st.positions ≤ 1) :
    openCount symbol (close_virtual_position priceOf st symbol).1.positions = 0 := by
  cases hsplit : splitAtOpen symbol st.positions with
  | none =>
    simp only [close_virtual_position, hsplit]
    exact splitAtOpen_eq_none symbol st.positions hsplit
  | some tup =>
    obtain ⟨pre, pos, post⟩ := tup
    obtain ⟨hps, hsym, hopen, hpre⟩ :=
      splitAtOpen_eq_some symbol st.positions pre pos post hsplit
    have hpre0 := openCount_eq_zero_of_no_open symbol pre hpre
    rw [hps, openCount_append, hpre0,
      openCount_cons_open_self symbol pos hsym hopen post] at h
    simp only [close_virtual_position, hsplit]
    rw [openCount_append, hpre0, openCount_cons_closed symbol _ rfl post]
    omega

/-- Closing one symbol does not touch another symbol's open count. -/
theorem close_virtual_position_openCount_other (priceOf : String → Option ℚ)
    (st : VirtState) (symbol s : String) (hs : s ≠ symbol) :
    openCount s (close_virtual_position priceOf st symbol).1.positions
      = openCount s st.positions := by
  cases hsplit : splitAtOpen symbol st.positions with
  | none => simp [close_virtual_position, hsplit]
  | some tup =>
    obtain ⟨pre, pos, post⟩ := tup
    obtain ⟨hps, hsym, -, -⟩ :=
      splitAtOpen_eq_some symbol st.positions pre pos post hsplit
    have hpos : pos.symbol ≠ s := by rw [hsym]; exact fun hc => hs hc.symm
    simp only [close_virtual_position, hsplit]
    rw [hps, openCount_append, openCount_append,
      openCount_cons_closed s _ rfl post, openCount_cons_other s pos hpos post]

/-- The in-place order/position modify of `place_order` changes neither a
position's symbol nor its status, so open counts are unchanged. -/
theorem updatePosByOrderId_openCount (oid : String) (q p m : ℚ) (s : String) :
    ∀ ps : List VPos, openCount s (updatePosByOrderId oid q p m ps)
      = openCount s ps := by
  intro ps
  induction ps with
  | nil => rfl
  | cons x rest ih =>
    by_cases hx : x.order_id = oid
    · simp only [updatePosByOrderId, if_pos hx, openCount, List.filter]
      cases hc : (x.symbol == s && x.isOpen) <;> simp [hc]
    · simp only [updatePosByOrderId, if_neg hx, openCount, List.filter]
      simp only [openCount, List.filter] at ih
      cases hc : (x.symbol == s && x.isOpen) <;> simp [hc, ih]

/-- The position-closing loop of `close_virtual_trade` never increases any
symbol's open count. -/
theorem closePosByOrderId_openCount_le (oid : String) (pnl : ℚ) (s : String) :
    ∀ ps : List VPos, openCount s (closePosByOrderId oid pnl ps)
      ≤ openCount s ps := by
  intro ps
  induction ps with
  | nil => exact le_refl 0
  | cons x rest ih =>
    by_cases hx : x.order_id = oid ∧ x.isOpen
    · simp only [closePosByOrderId, if_pos hx]
      rw [openCount_cons_closed s _ rfl rest]
      by_cases hc : x.symbol = s
      · rw [openCount_cons_open_self s x hc hx.2 rest]
        omega
      · rw [openCount_cons_other s x hc rest]
    · simp only [closePosByOrderId, if_neg hx]
      by_cases hc : x.symbol = s
      · cases hop : x.isOpen with
        | true =>
          rw [openCount_cons_open_self s x hc hop (closePosByOrderId oid pnl rest),
            openCount_cons_open_self s x hc hop rest]
          omega
        | false =>
          rw [openCount_cons_closed s x hop (closePosByOrderId oid pnl rest),
            openCount_cons_closed s x hop rest]
          exact ih
      · rw [openCount_cons_other s x hc (closePosByOrderId oid pnl rest),
          openCount_cons_other s x hc rest]
        exact ih

/-- C9: if every symbol has at most one open virtual position, then it still
does after any of the mutating operations — `place_order` (either path: the
new-order path first closes the symbol's open position before appending the
new one; the modify path touches no status), `close_virtual_position`, and
`close_virtual_trade`. -/
theorem open_position_uniqueness_preserved (priceOf : String → Option ℚ)
    (st : VirtState) (symbol : String) (side : Side) (qty : ℚ)
    (price : Option ℚ) (now : ℕ) (tradeId : String)
    (hinv : ∀ s, openCount s st.positions ≤ 1) :
    (∀ s, openCount s
        (place_order priceOf st symbol side qty price now).1.positions ≤ 1) ∧
    (∀ s, openCount s
        (close_virtual_position priceOf st symbol).1.positions ≤ 1) ∧
    (∀ s, openCount s
        (close_virtual_trade priceOf st tradeId).1.positions ≤ 1) := by
  refine ⟨?_, ?_, ?_⟩
  · intro s
    simp only [place_order]
    split
    · split
      · simpa using hinv s
      · split
        · simpa using hinv s
        · simpa [updatePosByOrderId_openCount] using hinv s
    · split
      · simpa using hinv s
      · simp only
        rw [openCount_append]
        by_cases hs : s = symbol
        · subst hs
          rw [close_virtual_position_openCount_self priceOf st s (hinv s)]
          rw [openCount_cons_open_self s _ rfl rfl []]
          simp [openCount_nil]
        · rw [close_virtual_position_openCount_other priceOf st symbol s hs]
          rw [openCount_cons_other s _ (fun hc => hs hc.symm) []]
          simpa [openCount_nil] using hinv s
  · intro s
    exact le_trans (close_virtual_position_openCount_le priceOf st symbol s) (hinv s)
  · intro s
    simp only [close_virtual_trade]
    split
    · simpa using hinv s
    · split
      · simpa using hinv s
      · split
        · simpa using hinv s
        · simp only
          exact le_trans (closePosByOrderId_openCount_le _ _ s st.positions) (hinv s)

/-- Witness for `open_position_uniqueness_preserved` from the empty initial
state (which trivially has at most one open position per symbol). -/
theorem open_position_uniqueness_preserved_witness :
    (∀ s, openCount s initState.positions ≤ 1) ∧
    ((∀ s, openCount s
        (place_order priceFeedA1 initState "A" .buy 400 (some 1) 5).1.positions ≤ 1) ∧
      (∀ s, openCount s
        (close_virtual_position priceFeedA1 initState "A").1.positions ≤ 1) ∧
      (∀ s, openCount s
        (close_virtual_trade priceFeedA1 initState "t").1.positions ≤ 1)) :=
  ⟨fun s => by simp [initState, openCount],
    open_position_uniqueness_preserved priceFeedA1 initState "A" .buy 400 (some 1) 5 "t"
      (fun s => by simp [initState, openCount])⟩

/-! ### C5 — the simulated `place_order` -/

/-- C5, counterexample.  (i) The computed margin is `round(qty*price/lev, 2)`,
not `qty*price/lev`: for qty 1, price 1, leverage 3 it is `0.33 ≠ 1/3`.
(ii) With an existing open order on the same symbol and side, a request
whose margin (70) exceeds the available capital (10) does **not** fail:
the modify path only checks the margin difference (70 − 60 = 10 ≤ 10),
succeeds, and mutates the ledger to `available = 0`. -/
theorem place_order_margin_rounded_and_modify_path :
    calculate_margin 1 1 3 = 33/100 ∧ ((33:ℚ)/100) ≠ 1 * 1 / 3 ∧
    calculate_margin 70 20 20 = 70 ∧
    stateWithOrderO0.capitalLedger.available = 10 ∧
    (place_order priceFeedA1 stateWithOrderO0 "A" .buy 70 (some 20) 9).2 = true ∧
    (place_order priceFeedA1 stateWithOrderO0 "A" .buy 70 (some 20) 9).1.capitalLedger
      = ⟨70, 0, 70⟩ := by
  refine ⟨?_, by norm_num, ?_, rfl, ?_, ?_⟩ <;>
    norm_num [calculate_margin, pyRound, roundHalfEven, place_order, priceOrDefault,
      findExistingOrder, stateWithOrderO0, orderO0, posO0, priceFeedA1,
      updateOrderFirst, updatePosByOrderId]

/-- C5 (amended): when no open virtual order for the same symbol and side
exists and no open position is carried for the symbol, `place_order`
computes `margin = round(qty*price/leverage, 2)` (leverage fixed at 20,
price defaulting to 1 when missing or zero); if that margin exceeds
available virtual capital it fails without mutating anything; otherwise it
appends one open entry order and one open position under the clock-derived
id `virtual_<now>`, reserves the margin (available decreases and used
increases by exactly the margin), records an open trade row, and
synthesizes a reduce-only TP limit order at `round(entry*1.30, 4)` and a
reduce-only SL limit order at `round(entry*0.90, 4)`, both on the opposite
side. -/
theorem place_order_new_order_spec (priceOf : String → Option ℚ) (st : VirtState)
    (symbol : String) (side : Side) (qty : ℚ) (price : Option ℚ) (now : ℕ)
    (hord : findExistingOrder symbol side st.orders = none)
    (hpos : splitAtOpen symbol st.positions = none) :
    (st.capitalLedger.available < calculate_margin qty (priceOrDefault price) 20 →
      place_order priceOf st symbol side qty price now = (st, false)) ∧
    (calculate_margin qty (priceOrDefault price) 20 ≤ st.capitalLedger.available →
      place_order priceOf st symbol side qty price now
        = ({ st with
              capitalLedger := reserveLedger st.capitalLedger
                (calculate_margin qty (priceOrDefault price) 20) 0,
              savedFile := reserveLedger st.capitalLedger
                (calculate_margin qty (priceOrDefault price) 20) 0,
              orders := st.orders ++
                [ { order_id := "virtual_" ++ toString now, symbol := symbol,
                    side := side, qty := qty, price := priceOrDefault price,
                    isOpen := true,
                    margin := some (calculate_margin qty (priceOrDefault price) 20),
                    reduce_only := false },
                  { order_id := "virtual_" ++ toString now ++ "_VTP",
                    symbol := symbol, side := oppositeSide side, qty := qty,
                    price := pyRound (priceOrDefault price * (13/10)) 4,
                    isOpen := true, margin := none, reduce_only := true },
                  { order_id := "virtual_" ++ toString now ++ "_VSL",
                    symbol := symbol, side := oppositeSide side, qty := qty,
                    price := pyRound (priceOrDefault price * (9/10)) 4,
                    isOpen := true, margin := none, reduce_only := true } ],
              positions := st.positions ++
                [ { symbol := symbol, side := side, qty := qty,
                    price := priceOrDefault price,
                    margin := calculate_margin qty (priceOrDefault price) 20,
                    isOpen := true, order_id := "virtual_" ++ toString now,
                    realized_pnl := none } ],
              dbTrades := st.dbTrades ++
                [ { symbol := symbol, side := side, qty := qty,
                    entry_price := priceOrDefault price, exit_price := none,
                    stop_loss := none, take_profit := none, leverage := 20,
                    margin_usdt := calculate_margin qty (priceOrDefault price) 20,
                    pnl := none, timestamp := now, isOpen := true,
                    order_id := "virtual_" ++ toString now } ] }, true)) ∧
    (reserveLedger st.capitalLedger (calculate_margin qty (priceOrDefault price) 20)
        0).available
      = st.capitalLedger.available - calculate_margin qty (priceOrDefault price) 20 ∧
    (reserveLedger st.capitalLedger (calculate_margin qty (priceOrDefault price) 20)
        0).used
      = st.capitalLedger.used + calculate_margin qty (priceOrDefault price) 20 := by
  refine ⟨?_, ?_, by simp [reserveLedger], by simp [reserveLedger]⟩
  · intro hcap
    simp only [place_order, hord]
    rw [if_pos hcap]
  · intro hcap
    simp only [place_order, hord, close_virtual_position, hpos]
    rw [if_neg (not_lt.mpr hcap)]
    simp [place_tp_sl_limit_orders, add_trade, reserveLedger]

/-- Witness for `place_order_new_order_spec`: from the fresh initial state,
buying 10 of `"A"` at price 2 reserves margin 1, leaving 99 available and
appending the entry order, its TP/SL bracket and one open position. -/
theorem place_order_new_order_spec_witness :
    findExistingOrder "A" .buy initState.orders = none ∧
    splitAtOpen "A" initState.positions = none ∧
    calculate_margin 10 (priceOrDefault (some 2)) 20 = 1 ∧
    (place_order priceFeedA1 initState "A" .buy 10 (some 2) 7).2 = true ∧
    (place_order priceFeedA1 initState "A" .buy 10 (some 2) 7).1.capitalLedger
      = ⟨100, 99, 1⟩ ∧
    (place_order priceFeedA1 initState "A" .buy 10 (some 2) 7).1.orders.length = 3 ∧
    (place_order priceFeedA1 initState "A" .buy 10 (some 2) 7).1.positions
      = [ { symbol := "A", side := .buy, qty := 10, price := 2, margin := 1,
            isOpen := true, order_id := "virtual_7", realized_pnl := none } ] := by
  have h1 : findExistingOrder "A" Side.buy initState.orders = none := rfl
  have h2 : splitAtOpen "A" initState.positions = none := rfl
  have hm : calculate_margin 10 (priceOrDefault (some 2)) 20 = 1 := by
    norm_num [calculate_margin, pyRound, roundHalfEven, priceOrDefault]
  have hmain :=
    place_order_new_order_spec priceFeedA1 initState "A" Side.buy 10 (some 2) 7 h1 h2
  have hle : calculate_margin 10 (priceOrDefault (some 2)) 20
      ≤ initState.capitalLedger.available := by
    rw [hm]; norm_num [initState]
  have heq := hmain.2.1 hle
  refine ⟨h1, h2, hm, ?_, ?_, ?_, ?_⟩
  · rw [heq]
  · rw [heq]
    norm_num [initState, reserveLedger, calculate_margin, pyRound, roundHalfEven,
      priceOrDefault]
  · rw [heq]
    norm_num [initState]
  · rw [heq]
    norm_num [initState, priceOrDefault, calculate_margin, pyRound, roundHalfEven]
    rfl

end AlgoTrader
